import Mathlib

/-!
Verification of the sherlock-service rust-indexer core (`src/rust-indexer/src`):
the language registry (`detect_language`), the CST traversal engine
(`walk_tree`), the per-language symbol extraction rule tables, signature
extraction, and the chunk-hash service (`get_chunk_hash`).

The concrete syntax tree produced by the external tree-sitter collaborator is
modelled as an explicit tree type (`Node`); source text is modelled as its
UTF-8 byte sequence (`List Nat`), matching Rust's byte-indexed `String`
slicing. Fallible Rust functions returning `anyhow::Result` are modelled with
`Except String`.
-/

namespace Sherlock

/-- UTF-8 encoding of a single Unicode scalar value (code point given as a
natural number), as a list of bytes. -/
def encodeChar (n : Nat) : List Nat :=
  if n < 0x80 then [n]
  else if n < 0x800 then [0xC0 + n / 64, 0x80 + n % 64]
  else if n < 0x10000 then [0xE0 + n / 4096, 0x80 + (n / 64) % 64, 0x80 + n % 64]
  else [0xF0 + n / 262144, 0x80 + (n / 4096) % 64, 0x80 + (n / 64) % 64, 0x80 + n % 64]

/-- The UTF-8 bytes of a string (Rust `str::as_bytes`). -/
def strBytes (s : String) : List Nat :=
  s.data.flatMap (fun c => encodeChar c.toNat)

/-- Whether a byte is a UTF-8 continuation byte (`0x80 ≤ b < 0xC0`). -/
def isCont (b : Nat) : Bool := 0x80 ≤ b && b < 0xC0

/-- UTF-8 decoding of a byte list into characters; `none` when the bytes are
not valid UTF-8 (overlong forms, surrogates, out-of-range scalars and
truncated sequences all rejected). Models Rust `str::from_utf8` succeeding or
failing, which is also how a byte-range slice of a valid `String` at a
non-character boundary surfaces in the shallow embedding. -/
def utf8Decode : List Nat → Option (List Char)
  | [] => some []
  | b :: rest =>
    if b < 0x80 then
      (utf8Decode rest).map (fun cs => Char.ofNat b :: cs)
    else if b < 0xC2 then none
    else if b < 0xE0 then
      match rest with
      | b1 :: rest1 =>
        if isCont b1 then
          (utf8Decode rest1).map (fun cs => Char.ofNat ((b - 0xC0) * 64 + (b1 - 0x80)) :: cs)
        else none
      | _ => none
    else if b < 0xF0 then
      match rest with
      | b1 :: b2 :: rest2 =>
        let v := (b - 0xE0) * 4096 + (b1 - 0x80) * 64 + (b2 - 0x80)
        if isCont b1 && isCont b2 && decide (0x800 ≤ v) &&
            !(decide (0xD800 ≤ v) && decide (v < 0xE000)) then
          (utf8Decode rest2).map (fun cs => Char.ofNat v :: cs)
        else none
      | _ => none
    else if b < 0xF5 then
      match rest with
      | b1 :: b2 :: b3 :: rest3 =>
        let v := (b - 0xF0) * 262144 + (b1 - 0x80) * 4096 + (b2 - 0x80) * 64 + (b3 - 0x80)
        if isCont b1 && isCont b2 && isCont b3 && decide (0x10000 ≤ v) &&
            decide (v < 0x110000) then
          (utf8Decode rest3).map (fun cs => Char.ofNat v :: cs)
        else none
      | _ => none
    else none

/-- Decode the byte range `[s, e)` of `src` as text; errors when the bounds
are improper or the bytes are not valid UTF-8 (the shallow-embedding image of
a Rust byte-slice panic / `utf8_text` failure). -/
def byteSliceText (src : List Nat) (s e : Nat) : Except String String :=
  if s ≤ e ∧ e ≤ src.length then
    match utf8Decode ((src.drop s).take (e - s)) with
    | some cs => .ok (String.mk cs)
    | none => .error "invalid utf-8"
  else .error "byte range out of bounds"

/-- Split a character list at every occurrence of the separator `sep`; the
separator is consumed and a trailing separator yields a trailing empty
segment (the semantics of Rust `str::split`). -/
def splitCh (sep : Char) : List Char → List (List Char)
  | [] => [[]]
  | c :: cs =>
    if c = sep then [] :: splitCh sep cs
    else
      match splitCh sep cs with
      | [] => [[c]]
      | l :: ls => (c :: l) :: ls

/-- Remove one trailing carriage return, as Rust `str::lines` does to each
line that was terminated by a newline. -/
def stripCR (l : List Char) : List Char :=
  match l.reverse with
  | '\r' :: rest => rest.reverse
  | _ => l

/-- Rust `str::lines`: split at `'\n'`, strip a `'\r'` preceding each split
point, and produce no trailing empty line for a terminating newline (the
empty string yields no lines at all). -/
def rustLines (s : String) : List String :=
  let parts := splitCh '\n' s.data
  let body := parts.dropLast.map (fun l => String.mk (stripCR l))
  let last := parts.getLastD []
  if last = [] then body else body ++ [String.mk last]

/-- Join character lists with a single newline separator
(Rust `Vec::join("\n")`). -/
def joinNl : List (List Char) → List Char
  | [] => []
  | [l] => l
  | l :: ls => l ++ '\n' :: joinNl ls

/-- Join strings with a single newline separator. -/
def joinNlStr (ls : List String) : String :=
  String.mk (joinNl (ls.map String.data))

/-! ## The chunk-hash service

`get_chunk_hash` (parser.rs:81-101) reads the file, line-splits it, resolves
the optional 1-based bounds and hashes the selected lines joined by a single
newline with `std::collections::hash_map::DefaultHasher` — SipHash-1-3 with
both keys zero — rendering the 64-bit result with `format!("{:x}", _)`.
The file read itself is I/O plumbing; the model takes the file's content. -/

/-- 2^64, the modulus of Rust `u64` arithmetic. -/
def M64 : Nat := 18446744073709551616

/-- Left rotation of a 64-bit word by `r` bits. -/
def rotl (r a : Nat) : Nat :=
  ((a % M64) * 2 ^ r + (a % M64) / 2 ^ (64 - r)) % M64

/-- 64-bit wrapping addition. -/
def add64 (a b : Nat) : Nat := (a + b) % M64

/-- One SipHash compression round on the state `(v0, v1, v2, v3)`. -/
def sipRound : Nat × Nat × Nat × Nat → Nat × Nat × Nat × Nat
  | (v0, v1, v2, v3) =>
    let v0 := add64 v0 v1
    let v1 := (rotl 13 v1).xor v0
    let v0 := rotl 32 v0
    let v2 := add64 v2 v3
    let v3 := (rotl 16 v3).xor v2
    let v0 := add64 v0 v3
    let v3 := (rotl 21 v3).xor v0
    let v2 := add64 v2 v1
    let v1 := (rotl 17 v1).xor v2
    let v2 := rotl 32 v2
    (v0, v1, v2, v3)

/-- Split a byte list into its full 8-byte little-endian words and the
remaining tail bytes. -/
def leWords : List Nat → List Nat × List Nat
  | b0 :: b1 :: b2 :: b3 :: b4 :: b5 :: b6 :: b7 :: rest =>
    let (ws, tail) := leWords rest
    ((b0 + b1 * 2 ^ 8 + b2 * 2 ^ 16 + b3 * 2 ^ 24 + b4 * 2 ^ 32 + b5 * 2 ^ 40 +
      b6 * 2 ^ 48 + b7 * 2 ^ 56) :: ws, tail)
  | bs => ([], bs)

/-- Little-endian value of a (short) byte list. -/
def leVal : List Nat → Nat
  | [] => 0
  | b :: bs => b % 256 + 256 * leVal bs

/-- Absorb one message word: `v3 ^= m`, one compression round, `v0 ^= m`. -/
def sipAbsorb (st : Nat × Nat × Nat × Nat) (m : Nat) : Nat × Nat × Nat × Nat :=
  let (v0, v1, v2, v3) := st
  let (v0, v1, v2, v3) := sipRound (v0, v1, v2, v3.xor m)
  (v0.xor m, v1, v2, v3)

/-- SipHash-1-3 of a byte sequence with both keys zero — the algorithm of
Rust's `DefaultHasher`, whose seed is fixed (no per-process randomness). -/
def sipHash13 (msg : List Nat) : Nat :=
  let v0 : Nat := 0x736f6d6570736575
  let v1 : Nat := 0x646f72616e646f6d
  let v2 : Nat := 0x6c7967656e657261
  let v3 : Nat := 0x7465646279746573
  let (ws, tail) := leWords msg
  let st := ws.foldl sipAbsorb (v0, v1, v2, v3)
  let b := (msg.length % 256) * 2 ^ 56 + leVal tail
  let (v0, v1, v2, v3) := sipAbsorb st b
  let (v0, v1, v2, v3) := sipRound (sipRound (sipRound (v0, v1, v2.xor 0xff, v3)))
  ((v0.xor v1).xor v2).xor v3

/-- Rust `Hash for str` feeds the string's UTF-8 bytes followed by a single
`0xff` byte to the hasher; `hasher.finish()` is the SipHash-1-3 value. -/
def defaultHashStr (s : String) : Nat :=
  sipHash13 (strBytes s ++ [0xff])

/-- Lowercase hexadecimal rendering of a natural number, Rust
`format!("{:x}", _)`: no leading zeros, `"0"` for zero. -/
def natToHex (n : Nat) : String :=
  String.mk (Nat.toDigits 16 n)

/-- The chunk-hash service `get_chunk_hash` (parser.rs:81-101), taking the
file's content in place of the file read. `start_line`/`end_line` are `i32`
in the source, hence `Int`; `start` is lower-clamped at 1 and shifted to a
0-based `usize`, `end` is upper-clamped at the line count and cast with
`as usize`, which sign-extends a negative `i32` to a huge value (modelled by
`% 2^64`); the range check then rejects it. Line counts are assumed within
`i32` range, as they are for any real file. -/
def get_chunk_hash (source : String) (start_line end_line : Option Int) :
    Except String String :=
  let lines := rustLines source
  let start : Nat := (max (start_line.getD 1) 1).toNat - 1
  let endI : Int := min (end_line.getD (lines.length : Int)) (lines.length : Int)
  let endN : Nat := (endI % (M64 : Int)).toNat
  if start ≥ lines.length ∨ endN > lines.length ∨ start ≥ endN then
    .error "Invalid line range"
  else
    .ok (natToHex (defaultHashStr (joinNlStr ((lines.drop start).take (endN - start)))))

/-! ## The tree abstraction

The external tree-sitter collaborator's CST, consumed read-only
(spec section 4.2): each node exposes a kind tag, 0-based start/end rows,
a byte range, ordered children and named-field lookup. Children are a
mutually inductive list so that all recursions are structural. -/

mutual

inductive Node : Type where
  | mk (kind : String) (startRow endRow startByte endByte : Nat)
      (children : NodeList) : Node

inductive NodeList : Type where
  | nil : NodeList
  | cons (fieldName : Option String) (n : Node) (rest : NodeList) : NodeList

end

/-- The node's kind tag (`Node::kind`). -/
def Node.kind : Node → String
  | .mk k _ _ _ _ _ => k

/-- The node's 0-based start row (`Node::start_position().row`). -/
def Node.startRow : Node → Nat
  | .mk _ sr _ _ _ _ => sr

/-- The node's 0-based end row (`Node::end_position().row`). -/
def Node.endRow : Node → Nat
  | .mk _ _ er _ _ _ => er

/-- The node's start byte offset (`Node::start_byte`). -/
def Node.startByte : Node → Nat
  | .mk _ _ _ sb _ _ => sb

/-- The node's end byte offset (`Node::end_byte`). -/
def Node.endByte : Node → Nat
  | .mk _ _ _ _ eb _ => eb

/-- The node's ordered children with their optional field names. -/
def Node.children : Node → NodeList
  | .mk _ _ _ _ _ cs => cs

/-- The children as a plain list of (field name, node) pairs. -/
def NodeList.toList : NodeList → List (Option String × Node)
  | .nil => []
  | .cons f n rest => (f, n) :: rest.toList

/-- The i-th child, counting all children (`Node::child(i)`). -/
def NodeList.get? : NodeList → Nat → Option Node
  | .nil, _ => none
  | .cons _ n _, 0 => some n
  | .cons _ _ rest, i + 1 => rest.get? i

/-- `Node::child(i)`. -/
def Node.child (n : Node) (i : Nat) : Option Node :=
  n.children.get? i

/-- First child carrying the given field name
(`Node::child_by_field_name`). -/
def NodeList.byFieldName : NodeList → String → Option Node
  | .nil, _ => none
  | .cons f n rest, name =>
    if f = some name then some n else rest.byFieldName name

/-- `Node::child_by_field_name(name)`. -/
def Node.childByFieldName (n : Node) (name : String) : Option Node :=
  n.children.byFieldName name

/-- `Node::utf8_text(source.as_bytes())`: decode the node's byte range. -/
def utf8Text (src : List Nat) (n : Node) : Except String String :=
  byteSliceText src n.startByte n.endByte

mutual

/-- Structural well-formedness of a tree-sitter node: the start row is at
most the end row, recursively (true of every node the collaborator
produces). -/
def Node.wf : Node → Bool
  | .mk _ sr er _ _ cs => sr ≤ er && cs.wf

/-- Well-formedness of every node of a child list. -/
def NodeList.wf : NodeList → Bool
  | .nil => true
  | .cons _ n rest => n.wf && rest.wf

end

/-! ## The symbol data model (symbol.rs) -/

/-- One extracted declaration (`CodeSymbol`, symbol.rs:3-15). The two line
fields are `i32` in the source, hence `Int`. -/
structure CodeSymbol : Type where
  id : String
  symbol_name : String
  symbol_type : String
  file_path : String
  line_start : Int
  line_end : Int
  signature : Option String
  dependencies : List String
  exported : Bool
  visibility : Option String
deriving Repr, DecidableEq

/-! ## Signature extraction and the per-language rule tables (parser.rs) -/

/-- Whether a character is whitespace for trimming; coincides with Rust
`char::is_whitespace` on the ASCII characters that occur here. -/
def isWS (c : Char) : Bool :=
  c = ' ' || c = '\t' || c = '\r' || c = '\n'

/-- Trim leading and trailing whitespace (Rust `str::trim`). -/
def trimChars (cs : List Char) : List Char :=
  ((cs.dropWhile isWS).reverse.dropWhile isWS).reverse

/-- First line of a text followed by whitespace-trimming:
`text.lines().next().unwrap_or("").trim()`. -/
def firstLineTrim (t : String) : String :=
  String.mk (trimChars ((rustLines t).headD "").data)

/-- `extract_signature` (parser.rs:380-388): clamp the end byte to the
source length, slice the node's byte range and return its first line
trimmed; errors exactly when the byte range is not decodable text. -/
def extract_signature (src : List Nat) (n : Node) : Except String String := do
  let t ← byteSliceText src n.startByte (min n.endByte src.length)
  pure (firstLineTrim t)

/-- The symbol `id` synthesis
`format!("{}_{}_{}", file_path, name, node.start_position().row)`. -/
def symbolId (filePath name : String) (row : Nat) : String :=
  filePath ++ "_" ++ name ++ "_" ++ toString row

/-- The Rust ruleset's node-kind-to-symbol-type table
(parser.rs:155-165). -/
def rustSymbolType (k : String) : String :=
  match k with
  | "function_item" => "function"
  | "impl_item" => "impl"
  | "struct_item" => "struct"
  | "enum_item" => "enum"
  | "trait_item" => "trait"
  | "type_item" => "type"
  | "const_item" => "const"
  | "static_item" => "static"
  | _ => "unknown"

/-- The node kinds matched by the Rust ruleset (parser.rs:152). -/
def rustKinds : List String :=
  ["function_item", "impl_item", "struct_item", "enum_item", "trait_item",
   "type_item", "const_item", "static_item"]

/-- The Rust export check (parser.rs:168-170):
`node.child(0).map(|n| n.kind() == "visibility_modifier").unwrap_or(false)`. -/
def rustExported (n : Node) : Bool :=
  ((n.child 0).map (fun c => c.kind == "visibility_modifier")).getD false

/-- `extract_rust_symbols` (parser.rs:144-190), returning the symbols pushed
for this one node (the caller appends them). `exported` is true iff the
node's first child is a `visibility_modifier`; visibility is "public" or
"private" accordingly; a signature-extraction failure is discarded with
`.ok()`. -/
def extract_rust_symbols (src : List Nat) (file_path : String) (n : Node) :
    Except String (List CodeSymbol) :=
  if n.kind ∈ rustKinds then
    match n.childByFieldName "name" with
    | some name_node => do
      let name ← utf8Text src name_node
      let exported := rustExported n
      pure [{ id := symbolId file_path name n.startRow
              symbol_name := name
              symbol_type := rustSymbolType n.kind
              file_path := file_path
              line_start := (n.startRow : Int) + 1
              line_end := (n.endRow : Int) + 1
              signature := (extract_signature src n).toOption
              dependencies := []
              exported := exported
              visibility := if exported then some "public" else some "private" }]
    | none => pure []
  else pure []

/-- The JavaScript/TypeScript ruleset's type table (parser.rs:203-209). -/
def jsSymbolType (k : String) : String :=
  match k with
  | "function_declaration" => "function"
  | "function" => "function"
  | "method_definition" => "method"
  | "class_declaration" => "class"
  | "variable_declaration" => "variable"
  | _ => "unknown"

/-- The node kinds matched by the JavaScript/TypeScript ruleset
(parser.rs:200). -/
def jsKinds : List String :=
  ["function_declaration", "function", "method_definition",
   "class_declaration", "variable_declaration"]

/-- `extract_js_symbols` (parser.rs:192-229): exported always false,
visibility absent, signature failure non-fatal. -/
def extract_js_symbols (src : List Nat) (file_path : String) (n : Node) :
    Except String (List CodeSymbol) :=
  if n.kind ∈ jsKinds then
    match n.childByFieldName "name" with
    | some name_node => do
      let name ← utf8Text src name_node
      pure [{ id := symbolId file_path name n.startRow
              symbol_name := name
              symbol_type := jsSymbolType n.kind
              file_path := file_path
              line_start := (n.startRow : Int) + 1
              line_end := (n.endRow : Int) + 1
              signature := (extract_signature src n).toOption
              dependencies := []
              exported := false
              visibility := none }]
    | none => pure []
  else pure []

/-- The Go ruleset's type table (parser.rs:242-247). -/
def goSymbolType (k : String) : String :=
  match k with
  | "function_declaration" => "function"
  | "method_declaration" => "method"
  | "type_declaration" => "type"
  | _ => "unknown"

/-- The node kinds matched by the Go ruleset (parser.rs:239). -/
def goKinds : List String :=
  ["function_declaration", "method_declaration", "type_declaration"]

/-- Uppercase test on the name's first character,
`name.chars().next().map(|c| c.is_uppercase()).unwrap_or(false)`;
`Char.isUpper` coincides with Rust `char::is_uppercase` on ASCII. -/
def goExported (name : String) : Bool :=
  ((name.data.head?).map Char.isUpper).getD false

/-- `extract_go_symbols` (parser.rs:231-267): exported iff the name's first
character is uppercase, visibility absent, signature failure non-fatal. -/
def extract_go_symbols (src : List Nat) (file_path : String) (n : Node) :
    Except String (List CodeSymbol) :=
  if n.kind ∈ goKinds then
    match n.childByFieldName "name" with
    | some name_node => do
      let name ← utf8Text src name_node
      pure [{ id := symbolId file_path name n.startRow
              symbol_name := name
              symbol_type := goSymbolType n.kind
              file_path := file_path
              line_start := (n.startRow : Int) + 1
              line_end := (n.endRow : Int) + 1
              signature := (extract_signature src n).toOption
              dependencies := []
              exported := goExported name
              visibility := none }]
    | none => pure []
  else pure []

/-- The Python ruleset's type table (parser.rs:280-284). -/
def pySymbolType (k : String) : String :=
  match k with
  | "function_definition" => "function"
  | "class_definition" => "class"
  | _ => "unknown"

/-- The node kinds matched by the Python ruleset (parser.rs:277). -/
def pyKinds : List String := ["function_definition", "class_definition"]

/-- `extract_python_symbols` (parser.rs:269-303): exported always false,
visibility absent, and the signature is `Some(self.extract_signature(..)?)`,
so a signature-extraction failure propagates (fatal). -/
def extract_python_symbols (src : List Nat) (file_path : String) (n : Node) :
    Except String (List CodeSymbol) :=
  if n.kind ∈ pyKinds then
    match n.childByFieldName "name" with
    | some name_node => do
      let name ← utf8Text src name_node
      let sig ← extract_signature src n
      pure [{ id := symbolId file_path name n.startRow
              symbol_name := name
              symbol_type := pySymbolType n.kind
              file_path := file_path
              line_start := (n.startRow : Int) + 1
              line_end := (n.endRow : Int) + 1
              signature := some sig
              dependencies := []
              exported := false
              visibility := none }]
    | none => pure []
  else pure []

/-- The Java ruleset's type table (parser.rs:316-320). -/
def javaSymbolType (k : String) : String :=
  match k with
  | "class_declaration" => "class"
  | "interface_declaration" => "interface"
  | "method_declaration" => "method"
  | _ => "unknown"

/-- The node kinds matched by the Java ruleset (parser.rs:313). -/
def javaKinds : List String :=
  ["class_declaration", "interface_declaration", "method_declaration"]

/-- `extract_java_symbols` (parser.rs:305-341): exported always true,
visibility always "public", signature failure non-fatal. -/
def extract_java_symbols (src : List Nat) (file_path : String) (n : Node) :
    Except String (List CodeSymbol) :=
  if n.kind ∈ javaKinds then
    match n.childByFieldName "name" with
    | some name_node => do
      let name ← utf8Text src name_node
      pure [{ id := symbolId file_path name n.startRow
              symbol_name := name
              symbol_type := javaSymbolType n.kind
              file_path := file_path
              line_start := (n.startRow : Int) + 1
              line_end := (n.endRow : Int) + 1
              signature := (extract_signature src n).toOption
              dependencies := []
              exported := true
              visibility := some "public" }]
    | none => pure []
  else pure []

/-- The C++ ruleset's type table (parser.rs:354-358). -/
def cppSymbolType (k : String) : String :=
  match k with
  | "function_definition" => "function"
  | "class_specifier" => "class"
  | "namespace_definition" => "namespace"
  | _ => "unknown"

/-- The node kinds matched by the C++ ruleset (parser.rs:351). -/
def cppKinds : List String :=
  ["function_definition", "class_specifier", "namespace_definition"]

/-- `extract_cpp_symbols` (parser.rs:343-378): exported always false,
visibility absent, and the signature is `Some(self.extract_signature(..)?)`,
so a signature-extraction failure propagates (fatal). -/
def extract_cpp_symbols (src : List Nat) (file_path : String) (n : Node) :
    Except String (List CodeSymbol) :=
  if n.kind ∈ cppKinds then
    match n.childByFieldName "name" with
    | some name_node => do
      let name ← utf8Text src name_node
      let sig ← extract_signature src n
      pure [{ id := symbolId file_path name n.startRow
              symbol_name := name
              symbol_type := cppSymbolType n.kind
              file_path := file_path
              line_start := (n.startRow : Int) + 1
              line_end := (n.endRow : Int) + 1
              signature := some sig
              dependencies := []
              exported := false
              visibility := none }]
    | none => pure []
  else pure []

/-! ## The traversal engine (parser.rs: walk_tree / extract_from_tree) -/

/-- Per-node dispatch of `walk_tree` (parser.rs:124-132): select the active
language's ruleset; an unknown language extracts nothing. -/
def extractDispatch (language : String) (src : List Nat) (file_path : String)
    (n : Node) : Except String (List CodeSymbol) :=
  match language with
  | "rust" => extract_rust_symbols src file_path n
  | "javascript" => extract_js_symbols src file_path n
  | "typescript" => extract_js_symbols src file_path n
  | "tsx" => extract_js_symbols src file_path n
  | "go" => extract_go_symbols src file_path n
  | "python" => extract_python_symbols src file_path n
  | "java" => extract_java_symbols src file_path n
  | "cpp" => extract_cpp_symbols src file_path n
  | _ => pure []

mutual

/-- `walk_tree` (parser.rs:115-142): run the active ruleset at the current
node, then recurse into every child in order regardless of whether the node
produced a symbol; symbols accumulate in visitation order. -/
def walkTree (language : String) (src : List Nat) (file_path : String) :
    Node → Except String (List CodeSymbol)
  | .mk k sr er sb eb cs => do
    let here ← extractDispatch language src file_path (.mk k sr er sb eb cs)
    let rest ← walkList language src file_path cs
    pure (here ++ rest)

/-- The recursion of `walk_tree` over a child list (parser.rs:135-139). -/
def walkList (language : String) (src : List Nat) (file_path : String) :
    NodeList → Except String (List CodeSymbol)
  | .nil => pure []
  | .cons _ c rest => do
    let s ← walkTree language src file_path c
    let r ← walkList language src file_path rest
    pure (s ++ r)

end

/-- `extract_from_tree` (parser.rs:103-113): walk the root node and return
the accumulated symbols. -/
def extract_from_tree (language : String) (src : List Nat)
    (file_path : String) (root : Node) : Except String (List CodeSymbol) :=
  walkTree language src file_path root

/-- `extract_dependencies` (parser.rs:75-79): a stub that succeeds with the
empty sequence for every path. -/
def extract_dependencies (_file_path : String) :
    Except String (List CodeSymbol) :=
  .ok []

/-! ## The language registry (parser.rs: detect_language) -/

/-- Rust `Path::file_name` on a unix-style path: the final normal component;
`none` for an empty path, a root path, or a path whose final component is
`..` (current-directory components and empty components are skipped). -/
def fileName (p : String) : Option String :=
  let comps := (splitCh '/' p.data).filter (fun c => c ≠ [] ∧ c ≠ ['.'])
  match comps.getLast? with
  | none => none
  | some c => if c = ['.', '.'] then none else some (String.mk c)

/-- Index of the last `'.'` in a character list, if any. -/
def lastDotIdx : List Char → Option Nat
  | [] => none
  | c :: rest =>
    match lastDotIdx rest with
    | some i => some (i + 1)
    | none => if c = '.' then some 0 else none

/-- Rust `Path::extension` applied to a file name: the part after the last
`'.'`, `none` when there is no dot or the part before the last dot is empty
(hidden files such as `.gitignore`). -/
def extOfFileName (f : String) : Option String :=
  match lastDotIdx f.data with
  | none => none
  | some 0 => none
  | some i => some (String.mk (f.data.drop (i + 1)))

/-- `Path::new(file_path).extension()`. -/
def pathExtension (p : String) : Option String :=
  (fileName p).bind extOfFileName

/-- ASCII lowercasing of a string; coincides with Rust `str::to_lowercase`
on the ASCII extensions involved. -/
def lowerStr (s : String) : String :=
  String.mk (s.data.map Char.toLower)

/-- The static extension table of `detect_language` (parser.rs:40-50). -/
def langTable (ext : String) : Option String :=
  match ext with
  | "rs" => some "rust"
  | "js" => some "javascript"
  | "jsx" => some "javascript"
  | "mjs" => some "javascript"
  | "cjs" => some "javascript"
  | "ts" => some "typescript"
  | "tsx" => some "tsx"
  | "go" => some "go"
  | "py" => some "python"
  | "java" => some "java"
  | "cpp" => some "cpp"
  | "cc" => some "cpp"
  | "cxx" => some "cpp"
  | "c" => some "cpp"
  | "h" => some "cpp"
  | "hpp" => some "cpp"
  | _ => none

/-- `detect_language` (parser.rs:34-51): lowercase the path's extension and
look it up in the static table; `none` when the extension is missing. -/
def detect_language (file_path : String) : Option String :=
  (pathExtension file_path).bind (fun ext => langTable (lowerStr ext))

/-! ## Concrete CSTs for the spec's minimal examples

The parse trees below are the trees the external tree-sitter grammars
produce for the spec's one-line examples, written out explicitly (parsing
itself is the out-of-scope collaborator). -/

/-- Build a child list from a plain list. -/
def nodeListOf : List (Option String × Node) → NodeList
  | [] => .nil
  | (f, n) :: rest => .cons f n (nodeListOf rest)

/-- UTF-8 bytes of the minimal Rust source `pub fn foo() {}`. -/
def rustFooSrc : List Nat := strBytes "pub fn foo() \x7b\x7d"

/-- The `function_item` node of `pub fn foo() {}`: a `visibility_modifier`
first child, the `fn` keyword token, and the named fields. -/
def rustFooItem : Node :=
  .mk "function_item" 0 0 0 15 (nodeListOf
    [(none, .mk "visibility_modifier" 0 0 0 3 .nil),
     (none, .mk "fn" 0 0 4 6 .nil),
     (some "name", .mk "identifier" 0 0 7 10 .nil),
     (some "parameters", .mk "parameters" 0 0 10 12 .nil),
     (some "body", .mk "block" 0 0 13 15 .nil)])

/-- The root `source_file` node of `pub fn foo() {}`. -/
def rustFooTree : Node :=
  .mk "source_file" 0 0 0 15 (nodeListOf [(none, rustFooItem)])

/-- The CST shared by the one-line Go sources `func bar() {}` and
`func Bar() {}` (identical shape; only the source bytes differ). -/
def goFuncTree : Node :=
  .mk "source_file" 0 0 0 13 (nodeListOf
    [(none, .mk "function_declaration" 0 0 0 13 (nodeListOf
      [(none, .mk "func" 0 0 0 4 .nil),
       (some "name", .mk "identifier" 0 0 5 8 .nil),
       (some "parameters", .mk "parameter_list" 0 0 8 10 .nil),
       (some "body", .mk "block" 0 0 11 13 .nil)]))])

/-- The minimal Java source with a method nested in a class. -/
def javaSrc : List Nat := strBytes "class A \x7b\nvoid m() \x7b\x7d\n\x7d"

/-- The `method_declaration` node of the nested example, on row 1. -/
def javaMethodNode : Node :=
  .mk "method_declaration" 1 1 10 21 (nodeListOf
    [(some "type", .mk "void_type" 1 1 10 14 .nil),
     (some "name", .mk "identifier" 1 1 15 16 .nil),
     (some "parameters", .mk "formal_parameters" 1 1 16 18 .nil),
     (some "body", .mk "block" 1 1 19 21 .nil)])

/-- The CST of `class A {\nvoid m() {}\n}`: a class spanning rows 0-2 whose
body contains a method on row 1. -/
def javaClassTree : Node :=
  .mk "program" 0 2 0 23 (nodeListOf
    [(none, .mk "class_declaration" 0 2 0 23 (nodeListOf
      [(none, .mk "class" 0 0 0 5 .nil),
       (some "name", .mk "identifier" 0 0 6 7 .nil),
       (some "body", .mk "class_body" 0 2 8 23 (nodeListOf
         [(none, .mk "\x7b" 0 0 8 9 .nil),
          (none, javaMethodNode),
          (none, .mk "\x7d" 2 2 22 23 .nil)]))]))])

/-- A source whose last byte is a lone UTF-8 continuation byte: the name
range `[0, 3)` decodes to `"foo"` but the whole range `[0, 4)` is not valid
text, so signature extraction fails on a node spanning it. -/
def badSigSrc : List Nat := [0x66, 0x6f, 0x6f, 0x80]

/-- A node of the given kind spanning the undecodable range `[0, 4)` of
`badSigSrc`, with a decodable name field at `[0, 3)`. -/
def badSigNode (k : String) : Node :=
  .mk k 0 0 0 4 (nodeListOf [(some "name", .mk "identifier" 0 0 0 3 .nil)])

/-- The one symbol extraction emits for `pub fn foo() {}`. -/
def fooSymbol : CodeSymbol :=
  { id := "test.rs_foo_0", symbol_name := "foo", symbol_type := "function",
    file_path := "test.rs", line_start := 1, line_end := 1,
    signature := some "pub fn foo() \x7b\x7d", dependencies := [],
    exported := true, visibility := some "public" }

/-- The one symbol extraction emits for `func bar() {}`. -/
def goBarSymbol : CodeSymbol :=
  { id := "test.go_bar_0", symbol_name := "bar", symbol_type := "function",
    file_path := "test.go", line_start := 1, line_end := 1,
    signature := some "func bar() \x7b\x7d", dependencies := [],
    exported := false, visibility := none }

/-- The one symbol extraction emits for `func Bar() {}`. -/
def goBarUpSymbol : CodeSymbol :=
  { id := "test.go_Bar_0", symbol_name := "Bar", symbol_type := "function",
    file_path := "test.go", line_start := 1, line_end := 1,
    signature := some "func Bar() \x7b\x7d", dependencies := [],
    exported := true, visibility := none }

/-- The class symbol extraction emits for `class A {\nvoid m() {}\n}`. -/
def javaClassSymbol : CodeSymbol :=
  { id := "Test.java_A_0", symbol_name := "A", symbol_type := "class",
    file_path := "Test.java", line_start := 1, line_end := 3,
    signature := some "class A \x7b", dependencies := [],
    exported := true, visibility := some "public" }

/-- The method symbol extraction emits for `class A {\nvoid m() {}\n}`. -/
def javaMethodSymbol : CodeSymbol :=
  { id := "Test.java_m_1", symbol_name := "m", symbol_type := "method",
    file_path := "Test.java", line_start := 2, line_end := 2,
    signature := some "void m() \x7b\x7d", dependencies := [],
    exported := true, visibility := some "public" }

/-- The symbol the Rust ruleset emits on `badSigSrc`: the signature is
absent because its extraction failed non-fatally. -/
def badRustSymbol : CodeSymbol :=
  { id := "t.rs_foo_0", symbol_name := "foo", symbol_type := "function",
    file_path := "t.rs", line_start := 1, line_end := 1,
    signature := none, dependencies := [],
    exported := false, visibility := some "private" }

/-- The list of extensions the static table recognises. -/
def supportedExts : List String :=
  ["rs", "js", "jsx", "mjs", "cjs", "ts", "tsx", "go", "py", "java",
   "cpp", "cc", "cxx", "c", "h", "hpp"]

/-- The lowercase hexadecimal digits. -/
def hexChars : List Char := "0123456789abcdef".data

/-! ## Inversion lemmas for the per-language rulesets -/

theorem except_bind_ok {α β ε : Type} (a : α) (f : α → Except ε β) :
    (Except.ok a >>= f) = f a := rfl

theorem except_bind_error {α β ε : Type} (e : ε) (f : α → Except ε β) :
    ((Except.error e : Except ε α) >>= f) = Except.error e := rfl

theorem except_pure {α ε : Type} (a : α) :
    (pure a : Except ε α) = Except.ok a := rfl

/-- A successful run of the Rust ruleset on a node either pushed nothing or
pushed exactly the one symbol record built at parser.rs:173-184. -/
theorem extract_rust_symbols_inv (src : List Nat) (fp : String) (n : Node)
    (syms : List CodeSymbol) (h : extract_rust_symbols src fp n = .ok syms) :
    syms = [] ∨ ∃ nn name, n.kind ∈ rustKinds ∧
      n.childByFieldName "name" = some nn ∧ utf8Text src nn = .ok name ∧
      syms = [{ id := symbolId fp name n.startRow, symbol_name := name,
                symbol_type := rustSymbolType n.kind, file_path := fp,
                line_start := (n.startRow : Int) + 1,
                line_end := (n.endRow : Int) + 1,
                signature := (extract_signature src n).toOption,
                dependencies := [], exported := rustExported n,
                visibility := if rustExported n then some "public"
                  else some "private" }] := by
  unfold extract_rust_symbols at h
  split at h
  · rename_i hkind
    split at h
    · rename_i nn hnn
      cases hname : utf8Text src nn with
      | error e => rw [hname] at h; simp [Except.bind] at h
      | ok name =>
        rw [hname] at h
        simp only [Except.bind, pure, Except.pure] at h
        cases h
        exact Or.inr ⟨nn, name, hkind, hnn, hname, rfl⟩
    · simp only [pure, Except.pure] at h
      cases h
      exact Or.inl rfl
  · simp only [pure, Except.pure] at h
    cases h
    exact Or.inl rfl

/-- A successful run of the JavaScript/TypeScript ruleset pushed nothing or
exactly the record built at parser.rs:212-223. -/
theorem extract_js_symbols_inv (src : List Nat) (fp : String) (n : Node)
    (syms : List CodeSymbol) (h : extract_js_symbols src fp n = .ok syms) :
    syms = [] ∨ ∃ nn name, n.kind ∈ jsKinds ∧
      n.childByFieldName "name" = some nn ∧ utf8Text src nn = .ok name ∧
      syms = [{ id := symbolId fp name n.startRow, symbol_name := name,
                symbol_type := jsSymbolType n.kind, file_path := fp,
                line_start := (n.startRow : Int) + 1,
                line_end := (n.endRow : Int) + 1,
                signature := (extract_signature src n).toOption,
                dependencies := [], exported := false,
                visibility := none }] := by
  unfold extract_js_symbols at h
  split at h
  · rename_i hkind
    split at h
    · rename_i nn hnn
      cases hname : utf8Text src nn with
      | error e => rw [hname] at h; simp [Except.bind] at h
      | ok name =>
        rw [hname] at h
        simp only [Except.bind, pure, Except.pure] at h
        cases h
        exact Or.inr ⟨nn, name, hkind, hnn, hname, rfl⟩
    · simp only [pure, Except.pure] at h
      cases h
      exact Or.inl rfl
  · simp only [pure, Except.pure] at h
    cases h
    exact Or.inl rfl

/-- A successful run of the Go ruleset pushed nothing or exactly the record
built at parser.rs:250-261. -/
theorem extract_go_symbols_inv (src : List Nat) (fp : String) (n : Node)
    (syms : List CodeSymbol) (h : extract_go_symbols src fp n = .ok syms) :
    syms = [] ∨ ∃ nn name, n.kind ∈ goKinds ∧
      n.childByFieldName "name" = some nn ∧ utf8Text src nn = .ok name ∧
      syms = [{ id := symbolId fp name n.startRow, symbol_name := name,
                symbol_type := goSymbolType n.kind, file_path := fp,
                line_start := (n.startRow : Int) + 1,
                line_end := (n.endRow : Int) + 1,
                signature := (extract_signature src n).toOption,
                dependencies := [], exported := goExported name,
                visibility := none }] := by
  unfold extract_go_symbols at h
  split at h
  · rename_i hkind
    split at h
    · rename_i nn hnn
      cases hname : utf8Text src nn with
      | error e => rw [hname] at h; simp [Except.bind] at h
      | ok name =>
        rw [hname] at h
        simp only [Except.bind, pure, Except.pure] at h
        cases h
        exact Or.inr ⟨nn, name, hkind, hnn, hname, rfl⟩
    · simp only [pure, Except.pure] at h
      cases h
      exact Or.inl rfl
  · simp only [pure, Except.pure] at h
    cases h
    exact Or.inl rfl

/-- A successful run of the Python ruleset pushed nothing or exactly the
record built at parser.rs:286-297; on success the signature extraction
necessarily succeeded (it is propagated with `?`). -/
theorem extract_python_symbols_inv (src : List Nat) (fp : String) (n : Node)
    (syms : List CodeSymbol) (h : extract_python_symbols src fp n = .ok syms) :
    syms = [] ∨ ∃ nn name sig, n.kind ∈ pyKinds ∧
      n.childByFieldName "name" = some nn ∧ utf8Text src nn = .ok name ∧
      extract_signature src n = .ok sig ∧
      syms = [{ id := symbolId fp name n.startRow, symbol_name := name,
                symbol_type := pySymbolType n.kind, file_path := fp,
                line_start := (n.startRow : Int) + 1,
                line_end := (n.endRow : Int) + 1,
                signature := some sig,
                dependencies := [], exported := false,
                visibility := none }] := by
  unfold extract_python_symbols at h
  split at h
  · rename_i hkind
    split at h
    · rename_i nn hnn
      cases hname : utf8Text src nn with
      | error e =>
        rw [hname, except_bind_error] at h
        exact Except.noConfusion h
      | ok name =>
        rw [hname, except_bind_ok] at h
        cases hsig : extract_signature src n with
        | error e =>
          rw [hsig, except_bind_error] at h
          exact Except.noConfusion h
        | ok sig =>
          rw [hsig, except_bind_ok, except_pure] at h
          cases h
          exact Or.inr ⟨nn, name, sig, hkind, hnn, hname, rfl, rfl⟩
    · simp only [pure, Except.pure] at h
      cases h
      exact Or.inl rfl
  · simp only [pure, Except.pure] at h
    cases h
    exact Or.inl rfl

/-- A successful run of the Java ruleset pushed nothing or exactly the
record built at parser.rs:324-335. -/
theorem extract_java_symbols_inv (src : List Nat) (fp : String) (n : Node)
    (syms : List CodeSymbol) (h : extract_java_symbols src fp n = .ok syms) :
    syms = [] ∨ ∃ nn name, n.kind ∈ javaKinds ∧
      n.childByFieldName "name" = some nn ∧ utf8Text src nn = .ok name ∧
      syms = [{ id := symbolId fp name n.startRow, symbol_name := name,
                symbol_type := javaSymbolType n.kind, file_path := fp,
                line_start := (n.startRow : Int) + 1,
                line_end := (n.endRow : Int) + 1,
                signature := (extract_signature src n).toOption,
                dependencies := [], exported := true,
                visibility := some "public" }] := by
  unfold extract_java_symbols at h
  split at h
  · rename_i hkind
    split at h
    · rename_i nn hnn
      cases hname : utf8Text src nn with
      | error e => rw [hname] at h; simp [Except.bind] at h
      | ok name =>
        rw [hname] at h
        simp only [Except.bind, pure, Except.pure] at h
        cases h
        exact Or.inr ⟨nn, name, hkind, hnn, hname, rfl⟩
    · simp only [pure, Except.pure] at h
      cases h
      exact Or.inl rfl
  · simp only [pure, Except.pure] at h
    cases h
    exact Or.inl rfl

/-- A successful run of the C++ ruleset pushed nothing or exactly the
record built at parser.rs:361-372; on success the signature extraction
necessarily succeeded (it is propagated with `?`). -/
theorem extract_cpp_symbols_inv (src : List Nat) (fp : String) (n : Node)
    (syms : List CodeSymbol) (h : extract_cpp_symbols src fp n = .ok syms) :
    syms = [] ∨ ∃ nn name sig, n.kind ∈ cppKinds ∧
      n.childByFieldName "name" = some nn ∧ utf8Text src nn = .ok name ∧
      extract_signature src n = .ok sig ∧
      syms = [{ id := symbolId fp name n.startRow, symbol_name := name,
                symbol_type := cppSymbolType n.kind, file_path := fp,
                line_start := (n.startRow : Int) + 1,
                line_end := (n.endRow : Int) + 1,
                signature := some sig,
                dependencies := [], exported := false,
                visibility := none }] := by
  unfold extract_cpp_symbols at h
  split at h
  · rename_i hkind
    split at h
    · rename_i nn hnn
      cases hname : utf8Text src nn with
      | error e =>
        rw [hname, except_bind_error] at h
        exact Except.noConfusion h
      | ok name =>
        rw [hname, except_bind_ok] at h
        cases hsig : extract_signature src n with
        | error e =>
          rw [hsig, except_bind_error] at h
          exact Except.noConfusion h
        | ok sig =>
          rw [hsig, except_bind_ok, except_pure] at h
          cases h
          exact Or.inr ⟨nn, name, sig, hkind, hnn, hname, rfl, rfl⟩
    · simp only [pure, Except.pure] at h
      cases h
      exact Or.inl rfl
  · simp only [pure, Except.pure] at h
    cases h
    exact Or.inl rfl

/-! ## Properties of the traversal engine -/

/-- Every symbol a ruleset pushes for a node carries the node's rows
converted to 1-based line numbers and an empty dependency list. -/
theorem extractDispatch_mem (lang : String) (src : List Nat) (fp : String)
    (n : Node) (syms : List CodeSymbol)
    (h : extractDispatch lang src fp n = .ok syms) :
    ∀ s ∈ syms, s.dependencies = [] ∧ s.line_start = (n.startRow : Int) + 1 ∧
      s.line_end = (n.endRow : Int) + 1 := by
  intro s hs
  unfold extractDispatch at h
  split at h
  · rcases extract_rust_symbols_inv _ _ _ _ h with rfl | ⟨nn, name, _, _, _, rfl⟩
    · simp at hs
    · simp at hs; subst hs; simp
  · rcases extract_js_symbols_inv _ _ _ _ h with rfl | ⟨nn, name, _, _, _, rfl⟩
    · simp at hs
    · simp at hs; subst hs; simp
  · rcases extract_js_symbols_inv _ _ _ _ h with rfl | ⟨nn, name, _, _, _, rfl⟩
    · simp at hs
    · simp at hs; subst hs; simp
  · rcases extract_js_symbols_inv _ _ _ _ h with rfl | ⟨nn, name, _, _, _, rfl⟩
    · simp at hs
    · simp at hs; subst hs; simp
  · rcases extract_go_symbols_inv _ _ _ _ h with rfl | ⟨nn, name, _, _, _, rfl⟩
    · simp at hs
    · simp at hs; subst hs; simp
  · rcases extract_python_symbols_inv _ _ _ _ h with rfl | ⟨nn, name, sig, _, _, _, _, rfl⟩
    · simp at hs
    · simp at hs; subst hs; simp
  · rcases extract_java_symbols_inv _ _ _ _ h with rfl | ⟨nn, name, _, _, _, rfl⟩
    · simp at hs
    · simp at hs; subst hs; simp
  · rcases extract_cpp_symbols_inv _ _ _ _ h with rfl | ⟨nn, name, sig, _, _, _, _, rfl⟩
    · simp at hs
    · simp at hs; subst hs; simp
  · cases h; simp at hs

mutual

theorem walkTree_symbols (lang : String) (src : List Nat) (fp : String) :
    ∀ (n : Node) (syms : List CodeSymbol), walkTree lang src fp n = .ok syms →
      ∀ s ∈ syms, s.dependencies = [] ∧
        (n.wf = true → 1 ≤ s.line_start ∧ s.line_start ≤ s.line_end)
  | .mk k sr er sb eb cs => by
    intro syms h s hs
    rw [walkTree] at h
    cases hd : extractDispatch lang src fp (Node.mk k sr er sb eb cs) with
    | error e => rw [hd, except_bind_error] at h; exact Except.noConfusion h
    | ok here =>
      rw [hd, except_bind_ok] at h
      cases hl : walkList lang src fp cs with
      | error e => rw [hl, except_bind_error] at h; exact Except.noConfusion h
      | ok rest =>
        rw [hl, except_bind_ok, except_pure] at h
        cases h
        rcases List.mem_append.mp hs with hmem | hmem
        · have := extractDispatch_mem _ _ _ _ _ hd s hmem
          refine ⟨this.1, fun hwf => ?_⟩
          simp only [Node.wf, Bool.and_eq_true, decide_eq_true_eq] at hwf
          have hsr : sr ≤ er := hwf.1
          constructor
          · rw [this.2.1, Node.startRow]; omega
          · rw [this.2.1, this.2.2, Node.startRow, Node.endRow]; omega
        · have := walkList_symbols lang src fp cs rest hl s hmem
          refine ⟨this.1, fun hwf => ?_⟩
          apply this.2
          simp only [Node.wf, Bool.and_eq_true, decide_eq_true_eq] at hwf
          exact hwf.2

theorem walkList_symbols (lang : String) (src : List Nat) (fp : String) :
    ∀ (cs : NodeList) (syms : List CodeSymbol), walkList lang src fp cs = .ok syms →
      ∀ s ∈ syms, s.dependencies = [] ∧
        (cs.wf = true → 1 ≤ s.line_start ∧ s.line_start ≤ s.line_end)
  | .nil => by
    intro syms h s hs
    rw [walkList] at h
    rw [except_pure] at h
    cases h
    simp at hs
  | .cons f c rest => by
    intro syms h s hs
    rw [walkList] at h
    cases hc : walkTree lang src fp c with
    | error e => rw [hc, except_bind_error] at h; exact Except.noConfusion h
    | ok s1 =>
      rw [hc, except_bind_ok] at h
      cases hr : walkList lang src fp rest with
      | error e => rw [hr, except_bind_error] at h; exact Except.noConfusion h
      | ok s2 =>
        rw [hr, except_bind_ok, except_pure] at h
        cases h
        rcases List.mem_append.mp hs with hmem | hmem
        · have := walkTree_symbols lang src fp c s1 hc s hmem
          refine ⟨this.1, fun hwf => ?_⟩
          apply this.2
          simp only [NodeList.wf, Bool.and_eq_true] at hwf
          exact hwf.1
        · have := walkList_symbols lang src fp rest s2 hr s hmem
          refine ⟨this.1, fun hwf => ?_⟩
          apply this.2
          simp only [NodeList.wf, Bool.and_eq_true] at hwf
          exact hwf.2

end

/-! ## The claims -/

theorem toDigitsCore_mem_hexChars :
    ∀ (fuel n : Nat) (ds : List Char), (∀ c ∈ ds, c ∈ hexChars) →
      ∀ c ∈ Nat.toDigitsCore 16 fuel n ds, c ∈ hexChars := by
  intro fuel
  induction fuel with
  | zero => intro n ds hds c hc; rw [Nat.toDigitsCore] at hc; exact hds c hc
  | succ f ih =>
    intro n ds hds c hc
    rw [Nat.toDigitsCore] at hc
    have hd : Nat.digitChar (n % 16) ∈ hexChars :=
      (by decide : ∀ m, m < 16 → Nat.digitChar m ∈ hexChars) _
        (Nat.mod_lt _ (by norm_num))
    split at hc
    · rcases List.mem_cons.mp hc with rfl | hmem
      · exact hd
      · exact hds c hmem
    · exact ih (n / 16) _
        (fun c' hc' => (List.mem_cons.mp hc').elim (fun hh => hh ▸ hd) (hds c')) c hc

theorem natToHex_hex (n : Nat) : ∀ c ∈ (natToHex n).data, c ∈ hexChars := by
  intro c hc
  unfold natToHex at hc
  rw [Nat.toDigits] at hc
  exact toDigitsCore_mem_hexChars (n + 1) n []
    (fun c' hc' => absurd hc' (List.not_mem_nil c')) c hc

/-- Claim C1: for every Rust CST node of a matched item kind with a name
field, the emitted symbol is exported iff the node's first child is a
visibility modifier, with visibility "public"/"private" accordingly; and
extracting `pub fn foo() \x7b\x7d` yields exactly one symbol: a function
named "foo", exported, public, with line_start = line_end = 1. -/
theorem rust_export_visibility :
    (∀ src fp n syms, extract_rust_symbols src fp n = .ok syms →
      ∀ s ∈ syms,
        (s.exported = true ↔ (n.child 0).map Node.kind = some "visibility_modifier") ∧
        s.visibility = some (if s.exported then "public" else "private")) ∧
    walkTree "rust" rustFooSrc "test.rs" rustFooTree = .ok [fooSymbol] ∧
    fooSymbol.symbol_type = "function" ∧ fooSymbol.symbol_name = "foo" ∧
    fooSymbol.exported = true ∧ fooSymbol.visibility = some "public" ∧
    fooSymbol.line_start = 1 ∧ fooSymbol.line_end = 1 := by
  refine ⟨?_, rfl, rfl, rfl, rfl, rfl, rfl, rfl⟩
  intro src fp n syms h s hs
  rcases extract_rust_symbols_inv _ _ _ _ h with rfl | ⟨nn, name, hk, hnn, hname, rfl⟩
  · simp at hs
  · simp at hs
    subst hs
    constructor
    · show rustExported n = true ↔ _
      unfold rustExported
      cases hc : n.child 0 with
      | none => simp
      | some c => simp
    · show (if rustExported n then some "public" else some "private") =
        some (if rustExported n then "public" else "private")
      cases rustExported n <;> rfl

/-- Witness for C1 at the `pub fn foo() \x7b\x7d` function item. -/
theorem rust_export_visibility_witness :
    (fooSymbol.exported = true ↔
      (rustFooItem.child 0).map Node.kind = some "visibility_modifier") ∧
    fooSymbol.visibility = some (if fooSymbol.exported then "public" else "private") :=
  rust_export_visibility.1 rustFooSrc "test.rs" rustFooItem [fooSymbol] rfl
    fooSymbol (by simp)

/-- Counterexample to claim C2 as stated: a request with start_line equal to
end_line (both 1, on a two-line file) does NOT fail with the invalid-range
error: it returns a hash of the first line, because the 0-based converted
start (0) is strictly below the exclusive end bound (1). -/
theorem chunk_hash_equal_bounds_returns_hash :
    get_chunk_hash "a\nb" (some 1) (some 1) = .ok "719b50b9a4f0e9f3" := by rfl

/-- Claim C2 (amended): start is lower-clamped at 1 and converted to
0-based, end is upper-clamped at the total line count; a request with
start_line greater than the total line count fails with the invalid-range
error, and for bounds with 1 ≤ start and 0 ≤ end ≤ total (end within i32
range) the request fails iff end_line < start_line or start_line exceeds
the total — so start_line = end_line in range succeeds rather than
failing. -/
theorem chunk_hash_range_check :
    (∀ source sv ev, ((rustLines source).length : Int) < sv →
      get_chunk_hash source (some sv) (some ev) = .error "Invalid line range") ∧
    (∀ source sv ev, 1 ≤ sv → 0 ≤ ev → ev < 2147483648 →
      ev ≤ ((rustLines source).length : Int) →
      ((get_chunk_hash source (some sv) (some ev)).isOk = false ↔
        ev < sv ∨ ((rustLines source).length : Int) < sv)) := by
  constructor
  · intro source sv ev h
    unfold get_chunk_hash
    simp only [Option.getD]
    split
    · rfl
    · rename_i hcond
      exact absurd (Or.inl (by omega)) hcond
  · intro source sv ev h1 h2 h3 h4
    unfold get_chunk_hash
    simp only [Option.getD]
    rw [min_eq_left h4, Int.emod_eq_of_lt h2 (by simp only [M64]; omega)]
    split
    · rename_i hcond
      simp only [Except.isOk, Except.toBool]
      constructor
      · intro _
        omega
      · intro _
        trivial
    · rename_i hcond
      simp only [Except.isOk, Except.toBool]
      constructor
      · intro h'
        simp at h'
      · intro h'
        exfalso
        omega

/-- Witness for the amended C2: start of 5 on a one-line file fails;
start = end = 1 on a two-line file does not fail. -/
theorem chunk_hash_range_check_witness :
    get_chunk_hash "a" (some 5) (some 7) = .error "Invalid line range" ∧
    ((get_chunk_hash "a\nb" (some 1) (some 1)).isOk = false ↔
      (1 : Int) < 1 ∨ ((rustLines "a\nb").length : Int) < 1) :=
  ⟨chunk_hash_range_check.1 "a" 5 7 (by decide),
   chunk_hash_range_check.2 "a\nb" 1 1 (by decide) (by decide) (by decide) (by decide)⟩

/-- Claim C3: the traversal is a depth-first pre-order walk: the symbols of
a node are those its ruleset emits followed by the concatenation of its
children's symbols in source order, children are walked regardless of
whether the node matched, and the Java class-with-method example yields two
symbols, class before method, the method's line range nested within the
class's. -/
theorem walk_preorder :
    (∀ lang src fp n here rest, extractDispatch lang src fp n = .ok here →
      walkList lang src fp n.children = .ok rest →
      walkTree lang src fp n = .ok (here ++ rest)) ∧
    (∀ lang src fp f c cs s1 s2, walkTree lang src fp c = .ok s1 →
      walkList lang src fp cs = .ok s2 →
      walkList lang src fp (.cons f c cs) = .ok (s1 ++ s2)) ∧
    walkTree "java" javaSrc "Test.java" javaClassTree =
      .ok [javaClassSymbol, javaMethodSymbol] ∧
    javaClassSymbol.line_start ≤ javaMethodSymbol.line_start ∧
    javaMethodSymbol.line_end ≤ javaClassSymbol.line_end ∧
    javaClassSymbol.line_start = 1 ∧ javaClassSymbol.line_end = 3 ∧
    javaMethodSymbol.line_start = 2 ∧ javaMethodSymbol.line_end = 2 := by
  refine ⟨?_, ?_, rfl, by decide, by decide, rfl, rfl, rfl, rfl⟩
  · intro lang src fp n here rest hd hl
    cases n with
    | mk k sr er sb eb cs =>
      rw [walkTree]
      rw [Node.children] at hl
      rw [hd, except_bind_ok, hl, except_bind_ok, except_pure]
  · intro lang src fp f c cs s1 s2 hc hl
    rw [walkList, hc, except_bind_ok, hl, except_bind_ok, except_pure]

/-- Witness for C3 at the Java class-with-method tree: the root produces no
symbol of its own yet its children are still walked. -/
theorem walk_preorder_witness :
    walkTree "java" javaSrc "Test.java" javaClassTree =
      .ok ([] ++ [javaClassSymbol, javaMethodSymbol]) :=
  walk_preorder.1 "java" javaSrc "Test.java" javaClassTree []
    [javaClassSymbol, javaMethodSymbol] rfl rfl

/-- Claim C4: get_chunk_hash is deterministic — it depends only on the
line content (two sources with identical lines hash identically, and the
defaulted bounds equal the explicit bounds 1..total); on success the
selected lines are joined with a single newline and hashed, and the
rendered hash uses only lowercase hexadecimal digits. -/
theorem chunk_hash_deterministic :
    (∀ s1 s2 sb eb, rustLines s1 = rustLines s2 →
      get_chunk_hash s1 sb eb = get_chunk_hash s2 sb eb) ∧
    (∀ source, get_chunk_hash source none none =
      get_chunk_hash source (some 1) (some ((rustLines source).length : Int))) ∧
    (∀ source sv ev, 1 ≤ sv → 0 ≤ ev → ev < 2147483648 →
      ev ≤ ((rustLines source).length : Int) → sv ≤ ev →
      get_chunk_hash source (some sv) (some ev) =
        .ok (natToHex (defaultHashStr (joinNlStr
          (((rustLines source).drop (sv.toNat - 1)).take (ev.toNat - (sv.toNat - 1))))))) ∧
    (∀ source sb eb hx, get_chunk_hash source sb eb = .ok hx →
      ∀ c ∈ hx.data, c ∈ hexChars) := by
  refine ⟨?_, ?_, ?_, ?_⟩
  · intro s1 s2 sb eb h
    unfold get_chunk_hash
    rw [h]
  · intro source
    rfl
  · intro source sv ev h1 h2 h3 h4 h5
    unfold get_chunk_hash
    simp only [Option.getD]
    rw [min_eq_left h4, Int.emod_eq_of_lt h2 (by simp only [M64]; omega), max_eq_left h1]
    rw [if_neg (by omega)]
  · intro source sb eb hx h c hc
    unfold get_chunk_hash at h
    simp only at h
    split at h
    · exact Except.noConfusion h
    · cases h
      exact natToHex_hex _ c hc

/-- Witness for C4: a trailing newline does not change the line content, so
the hash is unchanged; the success shape and hex alphabet at a concrete
request. -/
theorem chunk_hash_deterministic_witness :
    get_chunk_hash "a\nb" none none = get_chunk_hash "a\nb\n" none none ∧
    get_chunk_hash "a\nb" (some 1) (some 2) =
      .ok (natToHex (defaultHashStr (joinNlStr
        (((rustLines "a\nb").drop 0).take 2)))) ∧
    '3' ∈ hexChars :=
  ⟨chunk_hash_deterministic.1 "a\nb" "a\nb\n" none none rfl,
   chunk_hash_deterministic.2.2.1 "a\nb" 1 2 (by decide) (by decide) (by decide)
     (by decide) (by decide),
   chunk_hash_deterministic.2.2.2 "a\nb" none none "3f6f0735e841332d" rfl '3' (by decide)⟩

/-- Claim C5: every symbol the Go ruleset emits is exported iff the first
character of its name is uppercase, with no visibility; `func bar() \x7b\x7d`
yields exported = false and `func Bar() \x7b\x7d` yields exported = true. -/
theorem go_export_uppercase :
    (∀ src fp n syms, extract_go_symbols src fp n = .ok syms →
      ∀ s ∈ syms,
        (s.exported = true ↔ ∃ c, s.symbol_name.data.head? = some c ∧ c.isUpper = true) ∧
        s.visibility = none) ∧
    walkTree "go" (strBytes "func bar() \x7b\x7d") "test.go" goFuncTree = .ok [goBarSymbol] ∧
    walkTree "go" (strBytes "func Bar() \x7b\x7d") "test.go" goFuncTree = .ok [goBarUpSymbol] ∧
    goBarSymbol.exported = false ∧ goBarUpSymbol.exported = true := by
  refine ⟨?_, rfl, rfl, rfl, rfl⟩
  intro src fp n syms h s hs
  rcases extract_go_symbols_inv _ _ _ _ h with rfl | ⟨nn, name, hk, hnn, hname, rfl⟩
  · simp at hs
  · simp at hs
    subst hs
    constructor
    · show goExported name = true ↔ _
      unfold goExported
      cases hc : name.data.head? with
      | none => simp
      | some c => simp
    · rfl

/-- Witness for C5 at the `func Bar() \x7b\x7d` declaration. -/
theorem go_export_uppercase_witness :
    ((goBarUpSymbol.exported = true ↔
      ∃ c, goBarUpSymbol.symbol_name.data.head? = some c ∧ c.isUpper = true) ∧
     goBarUpSymbol.visibility = none) :=
  go_export_uppercase.1 (strBytes "func Bar() \x7b\x7d") "test.go"
    (.mk "function_declaration" 0 0 0 13 (nodeListOf
      [(none, .mk "func" 0 0 0 4 .nil),
       (some "name", .mk "identifier" 0 0 5 8 .nil),
       (some "parameters", .mk "parameter_list" 0 0 8 10 .nil),
       (some "body", .mk "block" 0 0 11 13 .nil)]))
    [goBarUpSymbol] rfl goBarUpSymbol (by simp)

/-- Claim C6: detect_language is the lowercased-extension lookup in the
fixed static table, returning none when the extension is missing or not in
the table. -/
theorem detect_language_table :
    (∀ p e, pathExtension p = some e → detect_language p = langTable (lowerStr e)) ∧
    (∀ p, pathExtension p = none → detect_language p = none) ∧
    (∀ e, e ∉ supportedExts → langTable e = none) ∧
    langTable "rs" = some "rust" ∧ langTable "js" = some "javascript" ∧
    langTable "jsx" = some "javascript" ∧ langTable "mjs" = some "javascript" ∧
    langTable "cjs" = some "javascript" ∧ langTable "ts" = some "typescript" ∧
    langTable "tsx" = some "tsx" ∧ langTable "go" = some "go" ∧
    langTable "py" = some "python" ∧ langTable "java" = some "java" ∧
    langTable "cpp" = some "cpp" ∧ langTable "cc" = some "cpp" ∧
    langTable "cxx" = some "cpp" ∧ langTable "c" = some "cpp" ∧
    langTable "h" = some "cpp" ∧ langTable "hpp" = some "cpp" := by
  refine ⟨?_, ?_, ?_, rfl, rfl, rfl, rfl, rfl, rfl, rfl, rfl, rfl, rfl, rfl,
    rfl, rfl, rfl, rfl, rfl⟩
  · intro p e h
    unfold detect_language
    rw [h]
    rfl
  · intro p h
    unfold detect_language
    rw [h]
    rfl
  · intro e he
    unfold langTable
    split <;> simp_all [supportedExts]

/-- Witness for C6: an uppercase .RS extension resolves through lowercasing,
an extensionless path resolves to none, and an unknown extension is not in
the table. -/
theorem detect_language_table_witness :
    pathExtension "src/lib.RS" = some "RS" ∧
    detect_language "src/lib.RS" = langTable (lowerStr "RS") ∧
    pathExtension "README" = none ∧ detect_language "README" = none ∧
    ("zig" ∉ supportedExts) ∧ langTable "zig" = none :=
  ⟨rfl, detect_language_table.1 "src/lib.RS" "RS" rfl, rfl,
   detect_language_table.2.1 "README" rfl, by decide,
   detect_language_table.2.2.1 "zig" (by decide)⟩

/-- Claim C7: signature extraction returns the first line of the node's
byte range trimmed; its failure is fatal (the ruleset errors) for python
and cpp but non-fatal (the ruleset succeeds with an absent signature) for
rust, javascript/typescript/tsx, go and java. -/
theorem signature_policy :
    (∀ src n t, byteSliceText src n.startByte (min n.endByte src.length) = .ok t →
      extract_signature src n = .ok (firstLineTrim t)) ∧
    (∀ src fp n nn, n.kind ∈ pyKinds → n.childByFieldName "name" = some nn →
      (utf8Text src nn).isOk = true → (extract_signature src n).isOk = false →
      (extract_python_symbols src fp n).isOk = false) ∧
    (∀ src fp n nn, n.kind ∈ cppKinds → n.childByFieldName "name" = some nn →
      (utf8Text src nn).isOk = true → (extract_signature src n).isOk = false →
      (extract_cpp_symbols src fp n).isOk = false) ∧
    (∀ src fp n nn, n.kind ∈ rustKinds → n.childByFieldName "name" = some nn →
      (utf8Text src nn).isOk = true → (extract_signature src n).isOk = false →
      (extract_rust_symbols src fp n).isOk = true ∧
      (∀ syms s, extract_rust_symbols src fp n = .ok syms → s ∈ syms →
        s.signature = none)) ∧
    (∀ src fp n nn, n.kind ∈ jsKinds → n.childByFieldName "name" = some nn →
      (utf8Text src nn).isOk = true → (extract_signature src n).isOk = false →
      (extract_js_symbols src fp n).isOk = true ∧
      (∀ syms s, extract_js_symbols src fp n = .ok syms → s ∈ syms →
        s.signature = none)) ∧
    (∀ src fp n nn, n.kind ∈ goKinds → n.childByFieldName "name" = some nn →
      (utf8Text src nn).isOk = true → (extract_signature src n).isOk = false →
      (extract_go_symbols src fp n).isOk = true ∧
      (∀ syms s, extract_go_symbols src fp n = .ok syms → s ∈ syms →
        s.signature = none)) ∧
    (∀ src fp n nn, n.kind ∈ javaKinds → n.childByFieldName "name" = some nn →
      (utf8Text src nn).isOk = true → (extract_signature src n).isOk = false →
      (extract_java_symbols src fp n).isOk = true ∧
      (∀ syms s, extract_java_symbols src fp n = .ok syms → s ∈ syms →
        s.signature = none)) := by
  refine ⟨?_, ?_, ?_, ?_, ?_, ?_, ?_⟩
  · intro src n t h
    unfold extract_signature
    rw [h, except_bind_ok]
    rfl
  · intro src fp n nn hk hnn hname hsig
    unfold extract_python_symbols
    rw [if_pos hk]
    simp only [hnn]
    cases hn : utf8Text src nn with
    | error e => rw [hn] at hname; simp [Except.isOk, Except.toBool] at hname
    | ok name =>
      rw [except_bind_ok]
      cases hs : extract_signature src n with
      | ok sig => rw [hs] at hsig; simp [Except.isOk, Except.toBool] at hsig
      | error e => rw [except_bind_error]; rfl
  · intro src fp n nn hk hnn hname hsig
    unfold extract_cpp_symbols
    rw [if_pos hk]
    simp only [hnn]
    cases hn : utf8Text src nn with
    | error e => rw [hn] at hname; simp [Except.isOk, Except.toBool] at hname
    | ok name =>
      rw [except_bind_ok]
      cases hs : extract_signature src n with
      | ok sig => rw [hs] at hsig; simp [Except.isOk, Except.toBool] at hsig
      | error e => rw [except_bind_error]; rfl
  · intro src fp n nn hk hnn hname hsig
    constructor
    · unfold extract_rust_symbols
      rw [if_pos hk]
      simp only [hnn]
      cases hn : utf8Text src nn with
      | error e => rw [hn] at hname; simp [Except.isOk, Except.toBool] at hname
      | ok name => rw [except_bind_ok, except_pure]; rfl
    · intro syms s h hs
      rcases extract_rust_symbols_inv _ _ _ _ h with rfl | ⟨nn2, name2, _, _, _, rfl⟩
      · simp at hs
      · simp at hs
        subst hs
        show (extract_signature src n).toOption = none
        cases hs2 : extract_signature src n with
        | ok sig => rw [hs2] at hsig; simp [Except.isOk, Except.toBool] at hsig
        | error e => rfl
  · intro src fp n nn hk hnn hname hsig
    constructor
    · unfold extract_js_symbols
      rw [if_pos hk]
      simp only [hnn]
      cases hn : utf8Text src nn with
      | error e => rw [hn] at hname; simp [Except.isOk, Except.toBool] at hname
      | ok name => rw [except_bind_ok, except_pure]; rfl
    · intro syms s h hs
      rcases extract_js_symbols_inv _ _ _ _ h with rfl | ⟨nn2, name2, _, _, _, rfl⟩
      · simp at hs
      · simp at hs
        subst hs
        show (extract_signature src n).toOption = none
        cases hs2 : extract_signature src n with
        | ok sig => rw [hs2] at hsig; simp [Except.isOk, Except.toBool] at hsig
        | error e => rfl
  · intro src fp n nn hk hnn hname hsig
    constructor
    · unfold extract_go_symbols
      rw [if_pos hk]
      simp only [hnn]
      cases hn : utf8Text src nn with
      | error e => rw [hn] at hname; simp [Except.isOk, Except.toBool] at hname
      | ok name => rw [except_bind_ok, except_pure]; rfl
    · intro syms s h hs
      rcases extract_go_symbols_inv _ _ _ _ h with rfl | ⟨nn2, name2, _, _, _, rfl⟩
      · simp at hs
      · simp at hs
        subst hs
        show (extract_signature src n).toOption = none
        cases hs2 : extract_signature src n with
        | ok sig => rw [hs2] at hsig; simp [Except.isOk, Except.toBool] at hsig
        | error e => rfl
  · intro src fp n nn hk hnn hname hsig
    constructor
    · unfold extract_java_symbols
      rw [if_pos hk]
      simp only [hnn]
      cases hn : utf8Text src nn with
      | error e => rw [hn] at hname; simp [Except.isOk, Except.toBool] at hname
      | ok name => rw [except_bind_ok, except_pure]; rfl
    · intro syms s h hs
      rcases extract_java_symbols_inv _ _ _ _ h with rfl | ⟨nn2, name2, _, _, _, rfl⟩
      · simp at hs
      · simp at hs
        subst hs
        show (extract_signature src n).toOption = none
        cases hs2 : extract_signature src n with
        | ok sig => rw [hs2] at hsig; simp [Except.isOk, Except.toBool] at hsig
        | error e => rfl

/-- Witness for C7: on a source whose final byte is a lone continuation
byte, signature extraction fails; the python and cpp rulesets then error
while the rust, js, go and java rulesets succeed, the rust one with an
absent signature. -/
theorem signature_policy_witness :
    extract_signature rustFooSrc rustFooItem = .ok (firstLineTrim "pub fn foo() \x7b\x7d") ∧
    (extract_python_symbols badSigSrc "t.py" (badSigNode "function_definition")).isOk = false ∧
    (extract_cpp_symbols badSigSrc "t.cpp" (badSigNode "function_definition")).isOk = false ∧
    (extract_rust_symbols badSigSrc "t.rs" (badSigNode "function_item")).isOk = true ∧
    badRustSymbol.signature = none ∧
    (extract_js_symbols badSigSrc "t.js" (badSigNode "function_declaration")).isOk = true ∧
    (extract_go_symbols badSigSrc "t.go" (badSigNode "function_declaration")).isOk = true ∧
    (extract_java_symbols badSigSrc "T.java" (badSigNode "method_declaration")).isOk = true :=
  ⟨signature_policy.1 rustFooSrc rustFooItem "pub fn foo() \x7b\x7d" rfl,
   signature_policy.2.1 badSigSrc "t.py" (badSigNode "function_definition")
     (.mk "identifier" 0 0 0 3 .nil) (by decide) rfl rfl rfl,
   signature_policy.2.2.1 badSigSrc "t.cpp" (badSigNode "function_definition")
     (.mk "identifier" 0 0 0 3 .nil) (by decide) rfl rfl rfl,
   (signature_policy.2.2.2.1 badSigSrc "t.rs" (badSigNode "function_item")
     (.mk "identifier" 0 0 0 3 .nil) (by decide) rfl rfl rfl).1,
   (signature_policy.2.2.2.1 badSigSrc "t.rs" (badSigNode "function_item")
     (.mk "identifier" 0 0 0 3 .nil) (by decide) rfl rfl rfl).2
     [badRustSymbol] badRustSymbol rfl (by simp),
   (signature_policy.2.2.2.2.1 badSigSrc "t.js" (badSigNode "function_declaration")
     (.mk "identifier" 0 0 0 3 .nil) (by decide) rfl rfl rfl).1,
   (signature_policy.2.2.2.2.2.1 badSigSrc "t.go" (badSigNode "function_declaration")
     (.mk "identifier" 0 0 0 3 .nil) (by decide) rfl rfl rfl).1,
   (signature_policy.2.2.2.2.2.2 badSigSrc "T.java" (badSigNode "method_declaration")
     (.mk "identifier" 0 0 0 3 .nil) (by decide) rfl rfl rfl).1⟩

/-- Claim C8: on a well-formed CST (start row at most end row at every
node, as tree-sitter guarantees), every extracted symbol in every language
has 1 ≤ line_start ≤ line_end. -/
theorem symbol_line_bounds (lang : String) (src : List Nat) (fp : String)
    (t : Node) (syms : List CodeSymbol) (hwf : t.wf = true)
    (h : walkTree lang src fp t = .ok syms) :
    ∀ s ∈ syms, 1 ≤ s.line_start ∧ s.line_start ≤ s.line_end :=
  fun s hs => (walkTree_symbols lang src fp t syms h s hs).2 hwf

/-- Witness for C8 at the `pub fn foo() \x7b\x7d` tree. -/
theorem symbol_line_bounds_witness :
    rustFooTree.wf = true ∧
    (1 ≤ fooSymbol.line_start ∧ fooSymbol.line_start ≤ fooSymbol.line_end) :=
  ⟨rfl, symbol_line_bounds "rust" rustFooSrc "test.rs" rustFooTree [fooSymbol]
    rfl rfl fooSymbol (by simp)⟩

/-- Claim C9: dependency extraction always succeeds with the empty
sequence, for every path; and the dependencies field of every extracted
symbol is always empty. -/
theorem dependencies_always_empty :
    (∀ p, extract_dependencies p = .ok []) ∧
    (∀ lang src fp t syms, walkTree lang src fp t = .ok syms →
      ∀ s ∈ syms, s.dependencies = []) :=
  ⟨fun _ => rfl,
   fun lang src fp t syms h s hs => (walkTree_symbols lang src fp t syms h s hs).1⟩

/-- Witness for C9 at a concrete path and the `pub fn foo() \x7b\x7d`
extraction. -/
theorem dependencies_always_empty_witness :
    extract_dependencies "src/lib.rs" = .ok [] ∧ fooSymbol.dependencies = [] :=
  ⟨dependencies_always_empty.1 "src/lib.rs",
   dependencies_always_empty.2 "rust" rustFooSrc "test.rs" rustFooTree [fooSymbol]
     rfl fooSymbol (by simp)⟩

/-- Claim C10: on a file whose content splits into zero lines (the empty
file), get_chunk_hash fails with the invalid-range error for every choice
of bounds, defaults included. -/
theorem empty_file_hash_fails (source : String) (hsrc : rustLines source = [])
    (s e : Option Int) : get_chunk_hash source s e = .error "Invalid line range" := by
  unfold get_chunk_hash
  rw [hsrc]
  simp

/-- Witness for C10 at the empty file with defaulted bounds. -/
theorem empty_file_hash_fails_witness :
    rustLines "" = [] ∧ get_chunk_hash "" none none = .error "Invalid line range" :=
  ⟨rfl, empty_file_hash_fails "" rfl none none⟩

end Sherlock
